import Mathlib

/-!
Shallow embedding of the Daylight Mirror native client
(`android/app/src/main/cpp/mirror_native.c`): wire framing, frame
reconstruction (keyframe copy / XOR delta with the chunked loops of
`apply_delta_neon`), acknowledgement discipline, handoff publishing,
resolution reallocation and the CPU RGBX blit path.  Byte buffers are
modelled as functions `Nat → Nat`; machine integers are `Nat`/`Int`
with explicit two-power wraps where the C code computes in `uint32_t`.
The LZ4 decompressor is out of scope and is threaded through as an
abstract pure function returning a size and the scratch contents.
-/

namespace DaylightMirror

def MAGIC_FRAME_0 : Nat := 0xDA

def MAGIC_FRAME_1 : Nat := 0x7E

def MAGIC_CMD_1 : Nat := 0x7F

def MAGIC_ACK_1 : Nat := 0x7A

def FLAG_KEYFRAME : Nat := 0x01

def CMD_BRIGHTNESS : Nat := 0x01

def CMD_RESOLUTION : Nat := 0x04

/-- `2 ^ 32`, the wrap modulus of the C `uint32_t` arithmetic. -/
def U32_MOD : Nat := 4294967296

/-- `2 ^ 31`, the sign boundary when a `uint32_t` is cast to C `int`. -/
def INT32_HALF : Nat := 2147483648

/-- The value of the C cast `(int)n` for an unsigned 32-bit value `n`. -/
def toInt32 (n : Nat) : Int :=
  if n % U32_MOD < INT32_HALF then ((n % U32_MOD : Nat) : Int)
  else ((n % U32_MOD : Nat) : Int) - (U32_MOD : Int)

/-- `memcpy(dst, src, n)` on byte buffers modelled as functions. -/
def memcpy_bytes (dst src : Nat → Nat) (n : Nat) : Nat → Nat :=
  fun j => if j < n then src j else dst j

/-! ## The XOR delta (`apply_delta_neon`, mirror_native.c lines 370-398)

The C routine walks the buffer in 64-byte chunks of four 16-byte vector
XOR stores, then 16-byte chunks, then a scalar tail.  Each loop is
embedded with an explicit fuel argument; `apply_delta_neon` supplies
fuel `count`, which the specification lemmas show is always enough. -/

/-- Reference (specification) result: the first `n` bytes of `frame`
XORed with `delta`, the rest untouched. -/
def xorBelow (frame delta : Nat → Nat) (n : Nat) : Nat → Nat :=
  fun j => if j < n then frame j ^^^ delta j else frame j

/-- `vst1q_u8(frame + i, veorq_u8(vld1q_u8(frame + i), vld1q_u8(delta + i)))`:
one 16-byte vector XOR store at offset `i`. -/
def veor_store16 (frame delta : Nat → Nat) (i : Nat) : Nat → Nat :=
  fun j => if i ≤ j ∧ j < i + 16 then frame j ^^^ delta j else frame j

/-- One iteration of the 64-byte main loop: four vector XOR stores at
`i`, `i+16`, `i+32`, `i+48` (disjoint ranges, so sequential composition
matches the load-all-then-store-all order of the C code). -/
def delta_chunk64 (frame delta : Nat → Nat) (i : Nat) : Nat → Nat :=
  veor_store16 (veor_store16 (veor_store16 (veor_store16 frame delta i) delta (i + 16))
    delta (i + 32)) delta (i + 48)

/-- `for (; i + 64 <= count; i += 64) { ... }` with explicit fuel. -/
def delta_loop64 (delta : Nat → Nat) : (Nat → Nat) → Nat → Nat → Nat → (Nat → Nat) × Nat
  | frame, i, _count, 0 => (frame, i)
  | frame, i, count, fuel + 1 =>
    if i + 64 ≤ count then delta_loop64 delta (delta_chunk64 frame delta i) (i + 64) count fuel
    else (frame, i)

/-- `for (; i + 16 <= count; i += 16) { ... }` with explicit fuel. -/
def delta_loop16 (delta : Nat → Nat) : (Nat → Nat) → Nat → Nat → Nat → (Nat → Nat) × Nat
  | frame, i, _count, 0 => (frame, i)
  | frame, i, count, fuel + 1 =>
    if i + 16 ≤ count then delta_loop16 delta (veor_store16 frame delta i) (i + 16) count fuel
    else (frame, i)

/-- `for (; i < count; i++) frame[i] ^= delta[i];` with explicit fuel. -/
def delta_tail_loop (delta : Nat → Nat) : (Nat → Nat) → Nat → Nat → Nat → (Nat → Nat)
  | frame, _i, _count, 0 => frame
  | frame, i, count, fuel + 1 =>
    if i < count then
      delta_tail_loop delta (Function.update frame i (frame i ^^^ delta i)) (i + 1) count fuel
    else frame

/-- `apply_delta_neon(frame, delta, count)`: 64-byte chunks, then
16-byte chunks, then the scalar remainder. -/
def apply_delta_neon (frame delta : Nat → Nat) (count : Nat) : Nat → Nat :=
  delta_tail_loop delta
    (delta_loop16 delta (delta_loop64 delta frame 0 count count).1
      (delta_loop64 delta frame 0 count count).2 count count).1
    (delta_loop16 delta (delta_loop64 delta frame 0 count count).1
      (delta_loop64 delta frame 0 count count).2 count count).2
    count count

lemma veor_store16_xorBelow (F D : Nat → Nat) (i : Nat) :
    veor_store16 (xorBelow F D i) D i = xorBelow F D (i + 16) := by
  funext j
  unfold veor_store16 xorBelow
  by_cases h1 : j < i
  · have h2 : ¬ (i ≤ j ∧ j < i + 16) := by omega
    have h3 : j < i + 16 := by omega
    simp [h1, h2, h3]
  · by_cases h4 : j < i + 16
    · have h5 : i ≤ j ∧ j < i + 16 := by omega
      simp [h1, h4, h5]
    · have h5 : ¬ (i ≤ j ∧ j < i + 16) := by omega
      simp [h1, h4, h5]

lemma delta_chunk64_xorBelow (F D : Nat → Nat) (i : Nat) :
    delta_chunk64 (xorBelow F D i) D i = xorBelow F D (i + 64) := by
  unfold delta_chunk64
  rw [veor_store16_xorBelow]
  rw [veor_store16_xorBelow]
  rw [show i + 16 + 16 = i + 32 from by omega]
  rw [veor_store16_xorBelow]
  rw [show i + 32 + 16 = i + 48 from by omega]
  rw [veor_store16_xorBelow]

lemma delta_loop64_spec (F D : Nat → Nat) (count : Nat) :
    ∀ (fuel i : Nat), count ≤ i + 64 * fuel → i ≤ count →
      ∃ i', delta_loop64 D (xorBelow F D i) i count fuel = (xorBelow F D i', i') ∧
        i ≤ i' ∧ i' ≤ count := by
  intro fuel
  induction fuel with
  | zero => exact fun i _ hle => ⟨i, rfl, Nat.le_refl i, hle⟩
  | succ n ih =>
    intro i h hle
    by_cases hc : i + 64 ≤ count
    · have e1 : delta_loop64 D (xorBelow F D i) i count (n + 1)
          = delta_loop64 D (delta_chunk64 (xorBelow F D i) D i) (i + 64) count n := by
        simp only [delta_loop64, if_pos hc]
      rw [e1, delta_chunk64_xorBelow]
      obtain ⟨i', e2, h2, h3⟩ := ih (i + 64) (by omega) hc
      exact ⟨i', e2, by omega, h3⟩
    · exact ⟨i, by simp only [delta_loop64, if_neg hc], Nat.le_refl i, hle⟩

lemma delta_loop16_spec (F D : Nat → Nat) (count : Nat) :
    ∀ (fuel i : Nat), count ≤ i + 16 * fuel → i ≤ count →
      ∃ i', delta_loop16 D (xorBelow F D i) i count fuel = (xorBelow F D i', i') ∧
        i ≤ i' ∧ i' ≤ count := by
  intro fuel
  induction fuel with
  | zero => exact fun i _ hle => ⟨i, rfl, Nat.le_refl i, hle⟩
  | succ n ih =>
    intro i h hle
    by_cases hc : i + 16 ≤ count
    · have e1 : delta_loop16 D (xorBelow F D i) i count (n + 1)
          = delta_loop16 D (veor_store16 (xorBelow F D i) D i) (i + 16) count n := by
        simp only [delta_loop16, if_pos hc]
      rw [e1, veor_store16_xorBelow]
      obtain ⟨i', e2, h2, h3⟩ := ih (i + 16) (by omega) hc
      exact ⟨i', e2, by omega, h3⟩
    · exact ⟨i, by simp only [delta_loop16, if_neg hc], Nat.le_refl i, hle⟩

lemma update_xorBelow (F D : Nat → Nat) (i : Nat) :
    Function.update (xorBelow F D i) i (xorBelow F D i i ^^^ D i) = xorBelow F D (i + 1) := by
  funext j
  by_cases hj : j = i
  · subst hj
    simp [Function.update, xorBelow]
  · simp only [Function.update, dif_neg hj]
    unfold xorBelow
    by_cases h1 : j < i
    · have h2 : j < i + 1 := by omega
      simp [h1, h2]
    · have h2 : ¬ j < i + 1 := by omega
      simp [h1, h2]

lemma delta_tail_spec (F D : Nat → Nat) (count : Nat) :
    ∀ (fuel i : Nat), count ≤ i + fuel → i ≤ count →
      delta_tail_loop D (xorBelow F D i) i count fuel = xorBelow F D count := by
  intro fuel
  induction fuel with
  | zero =>
    intro i h hle
    have : i = count := by omega
    subst this
    rfl
  | succ n ih =>
    intro i h hle
    by_cases hc : i < count
    · have e1 : delta_tail_loop D (xorBelow F D i) i count (n + 1)
          = delta_tail_loop D (Function.update (xorBelow F D i) i
              (xorBelow F D i i ^^^ D i)) (i + 1) count n := by
        simp only [delta_tail_loop, if_pos hc]
      rw [e1, update_xorBelow]
      exact ih (i + 1) (by omega) (by omega)
    · have : i = count := by omega
      subst this
      simp only [delta_tail_loop, if_neg hc]

/-- The chunked XOR routine computes exactly the bytewise XOR of the
first `count` bytes. -/
theorem apply_delta_neon_spec (F D : Nat → Nat) (count : Nat) :
    apply_delta_neon F D count = xorBelow F D count := by
  have h0 : xorBelow F D 0 = F := by
    funext j
    simp [xorBelow]
  obtain ⟨i1, e1, _, hle1⟩ := delta_loop64_spec F D count count 0 (by omega) (by omega)
  rw [h0] at e1
  obtain ⟨i2, e2, _, hle2⟩ := delta_loop16_spec F D count count i1 (by omega) hle1
  have e3 := delta_tail_spec F D count count i2 (by omega) hle2
  unfold apply_delta_neon
  rw [e1]
  dsimp only
  rw [e2]
  exact e3

/-! ## Decoder state (the globals of mirror_native.c owned by the
decode thread plus the handoff slot) and the per-packet step of
`decode_thread`'s inner loop (lines 744-905). -/

structure MirrorState where
  frame_w : Nat
  frame_h : Nat
  pixel_count : Nat
  max_compressed : Nat
  current_frame : Nat → Nat
  compressed_buf : Nat → Nat
  decompress_scratch : Nat → Nat
  render0 : Nat → Nat
  render1 : Nat → Nat
  ready_index : Nat
  has_ready_frame : Bool
  ready_seq : Nat
  overwritten_frames : Nat
  dropped_frames : Nat
  skipped_deltas : Nat
  last_seq : Nat
  has_last_seq : Bool

/-- A frame packet after header parsing: `flags`, `seq` and the payload
bytes (`read_exact` delivers exactly `length` bytes, so the payload
list carries the header's length as its length). -/
structure PacketArgs where
  flags : Nat
  seq : Nat
  payload : List Nat

/-- Control outcome of one iteration of the inner packet loop:
`brk` fails the connection (C `break`), `cont` reads the next packet. -/
inductive LoopCtl
  | brk
  | cont
deriving DecidableEq

/-- Observable actions of the decode thread, in program order:
bytes sent on the socket (`ack`) and hand-offs to the presenter. -/
inductive Event
  | ack (bytes : List Nat)
  | publish (seq : Nat)
deriving DecidableEq

structure StepResult where
  state : MirrorState
  events : List Event
  ctl : LoopCtl

/-- `send_ack(sock, seq)` (lines 455-464): the 6 bytes written. -/
def ack_bytes (seq : Nat) : List Nat :=
  [MAGIC_FRAME_0, MAGIC_ACK_1, seq &&& 0xFF, (seq >>> 8) &&& 0xFF,
   (seq >>> 16) &&& 0xFF, (seq >>> 24) &&& 0xFF]

/-- `publish_frame(frame, seq)` (lines 484-498): copy into the write
buffer `1 - ready_index`, count an overwrite if the consumer had not
taken the previous frame, flip `ready_index`, set seq and ready flag. -/
def publish_frame (s : MirrorState) (frame : Nat → Nat) (seq : Nat) : MirrorState :=
  { s with
    render0 := if (if s.ready_index = 0 then 1 else 0) = 0 then
        memcpy_bytes s.render0 frame s.pixel_count else s.render0,
    render1 := if (if s.ready_index = 0 then 1 else 0) = 1 then
        memcpy_bytes s.render1 frame s.pixel_count else s.render1,
    overwritten_frames := if s.has_ready_frame then s.overwritten_frames + 1
      else s.overwritten_frames,
    ready_index := if s.ready_index = 0 then 1 else 0,
    ready_seq := seq,
    has_ready_frame := true }

/-- The sequence-gap statistics update (lines 818-821): on
`has_last_seq && seq != last_seq + 1`, the `uint32_t` difference
`seq - last_seq - 1` is cast to `int`; it is added to the dropped-frame
counter only when `0 < gap < 1000`. -/
def track_gap (s : MirrorState) (seq : Nat) : MirrorState :=
  if s.has_last_seq = true ∧ seq ≠ (s.last_seq + 1) % U32_MOD then
    (if 0 < toInt32 (U32_MOD + seq - s.last_seq - 1) ∧
        toInt32 (U32_MOD + seq - s.last_seq - 1) < 1000 then
      { s with dropped_frames :=
          s.dropped_frames + (toInt32 (U32_MOD + seq - s.last_seq - 1)).toNat }
    else s)
  else s

/-- Lines 818-823: gap statistics followed by `last_seq = seq;
has_last_seq = 1;`. -/
def seq_track (s : MirrorState) (seq : Nat) : MirrorState :=
  { track_gap s seq with last_seq := seq, has_last_seq := true }

/-- `read_exact(sock, g_compressed_buf, payload_len)` (line 830):
the payload bytes land in the compressed buffer. -/
def ingest_payload (s : MirrorState) (payload : List Nat) : MirrorState :=
  { s with compressed_buf :=
      fun j => if j < payload.length then payload.getD j 0 else s.compressed_buf j }

/-- Lines 850-856: keyframe `memcpy`, tiny-delta skip
(`payload_len < 256`), or the chunked XOR.  `dbuf` is the scratch
contents produced by `LZ4_decompress_safe`. -/
def reconstruct_step (s : MirrorState) (p : PacketArgs) (dbuf : Nat → Nat) : MirrorState :=
  if p.flags &&& FLAG_KEYFRAME ≠ 0 then
    { s with decompress_scratch := memcpy_bytes s.decompress_scratch dbuf s.pixel_count,
             current_frame := memcpy_bytes s.current_frame dbuf s.pixel_count }
  else if p.payload.length < 256 then
    { s with decompress_scratch := memcpy_bytes s.decompress_scratch dbuf s.pixel_count,
             skipped_deltas := s.skipped_deltas + 1 }
  else
    { s with decompress_scratch := memcpy_bytes s.decompress_scratch dbuf s.pixel_count,
             current_frame := apply_delta_neon s.current_frame dbuf s.pixel_count }

/-- One frame packet through lines 814-860 of `decode_thread`:
sequence tracking, `payload_len > g_max_compressed` check, payload
read, `LZ4_decompress_safe` size check (keyframe mismatch breaks,
delta mismatch skips), reconstruction, ack, publish.  `lz4` is the
abstract decompressor: given the payload bytes and the output
capacity `g_pixel_count`, it returns the C `int` result and the
scratch-buffer contents. -/
def process_frame_packet (lz4 : List Nat → Nat → Int × (Nat → Nat))
    (s : MirrorState) (p : PacketArgs) : StepResult :=
  if p.payload.length > (seq_track s p.seq).max_compressed then
    ⟨seq_track s p.seq, [], .brk⟩
  else if (lz4 p.payload (seq_track s p.seq).pixel_count).1 ≠
      ((seq_track s p.seq).pixel_count : Int) then
    (if p.flags &&& FLAG_KEYFRAME ≠ 0 then
      ⟨ingest_payload (seq_track s p.seq) p.payload, [], .brk⟩
    else
      ⟨ingest_payload (seq_track s p.seq) p.payload, [], .cont⟩)
  else
    ⟨publish_frame
        (reconstruct_step (ingest_payload (seq_track s p.seq) p.payload) p
          (lz4 p.payload (seq_track s p.seq).pixel_count).2)
        (reconstruct_step (ingest_payload (seq_track s p.seq) p.payload) p
          (lz4 p.payload (seq_track s p.seq).pixel_count).2).current_frame
        p.seq,
     [.ack (ack_bytes p.seq), .publish p.seq], .cont⟩

@[simp] lemma track_gap_frame_w (s : MirrorState) (q : Nat) :
    (track_gap s q).frame_w = s.frame_w := by
  unfold track_gap
  split_ifs <;> rfl

@[simp] lemma track_gap_frame_h (s : MirrorState) (q : Nat) :
    (track_gap s q).frame_h = s.frame_h := by
  unfold track_gap
  split_ifs <;> rfl

@[simp] lemma track_gap_pixel_count (s : MirrorState) (q : Nat) :
    (track_gap s q).pixel_count = s.pixel_count := by
  unfold track_gap
  split_ifs <;> rfl

@[simp] lemma track_gap_max_compressed (s : MirrorState) (q : Nat) :
    (track_gap s q).max_compressed = s.max_compressed := by
  unfold track_gap
  split_ifs <;> rfl

@[simp] lemma track_gap_current_frame (s : MirrorState) (q : Nat) :
    (track_gap s q).current_frame = s.current_frame := by
  unfold track_gap
  split_ifs <;> rfl

@[simp] lemma track_gap_skipped (s : MirrorState) (q : Nat) :
    (track_gap s q).skipped_deltas = s.skipped_deltas := by
  unfold track_gap
  split_ifs <;> rfl

@[simp] lemma seq_track_frame_w (s : MirrorState) (q : Nat) :
    (seq_track s q).frame_w = s.frame_w := by
  simp [seq_track]

@[simp] lemma seq_track_frame_h (s : MirrorState) (q : Nat) :
    (seq_track s q).frame_h = s.frame_h := by
  simp [seq_track]

@[simp] lemma seq_track_pixel_count (s : MirrorState) (q : Nat) :
    (seq_track s q).pixel_count = s.pixel_count := by
  simp [seq_track]

@[simp] lemma seq_track_max_compressed (s : MirrorState) (q : Nat) :
    (seq_track s q).max_compressed = s.max_compressed := by
  simp [seq_track]

@[simp] lemma seq_track_current_frame (s : MirrorState) (q : Nat) :
    (seq_track s q).current_frame = s.current_frame := by
  simp [seq_track]

@[simp] lemma seq_track_dropped (s : MirrorState) (q : Nat) :
    (seq_track s q).dropped_frames = (track_gap s q).dropped_frames := by
  simp [seq_track]

@[simp] lemma ingest_payload_frame_w (s : MirrorState) (pl : List Nat) :
    (ingest_payload s pl).frame_w = s.frame_w := rfl

@[simp] lemma ingest_payload_frame_h (s : MirrorState) (pl : List Nat) :
    (ingest_payload s pl).frame_h = s.frame_h := rfl

@[simp] lemma ingest_payload_pixel_count (s : MirrorState) (pl : List Nat) :
    (ingest_payload s pl).pixel_count = s.pixel_count := rfl

@[simp] lemma ingest_payload_max_compressed (s : MirrorState) (pl : List Nat) :
    (ingest_payload s pl).max_compressed = s.max_compressed := rfl

@[simp] lemma ingest_payload_current_frame (s : MirrorState) (pl : List Nat) :
    (ingest_payload s pl).current_frame = s.current_frame := rfl

@[simp] lemma ingest_payload_dropped (s : MirrorState) (pl : List Nat) :
    (ingest_payload s pl).dropped_frames = s.dropped_frames := rfl

@[simp] lemma publish_frame_current_frame (s : MirrorState) (f : Nat → Nat) (q : Nat) :
    (publish_frame s f q).current_frame = s.current_frame := rfl

@[simp] lemma publish_frame_pixel_count (s : MirrorState) (f : Nat → Nat) (q : Nat) :
    (publish_frame s f q).pixel_count = s.pixel_count := rfl

@[simp] lemma publish_frame_max_compressed (s : MirrorState) (f : Nat → Nat) (q : Nat) :
    (publish_frame s f q).max_compressed = s.max_compressed := rfl

@[simp] lemma publish_frame_dropped (s : MirrorState) (f : Nat → Nat) (q : Nat) :
    (publish_frame s f q).dropped_frames = s.dropped_frames := rfl

@[simp] lemma reconstruct_step_pixel_count (s : MirrorState) (p : PacketArgs) (d : Nat → Nat) :
    (reconstruct_step s p d).pixel_count = s.pixel_count := by
  unfold reconstruct_step
  split_ifs <;> rfl

@[simp] lemma reconstruct_step_max_compressed (s : MirrorState) (p : PacketArgs) (d : Nat → Nat) :
    (reconstruct_step s p d).max_compressed = s.max_compressed := by
  unfold reconstruct_step
  split_ifs <;> rfl

@[simp] lemma reconstruct_step_dropped (s : MirrorState) (p : PacketArgs) (d : Nat → Nat) :
    (reconstruct_step s p d).dropped_frames = s.dropped_frames := by
  unfold reconstruct_step
  split_ifs <;> rfl

lemma process_pixel_count (lz4 : List Nat → Nat → Int × (Nat → Nat))
    (s : MirrorState) (p : PacketArgs) :
    (process_frame_packet lz4 s p).state.pixel_count = s.pixel_count := by
  unfold process_frame_packet
  split_ifs <;> simp

lemma process_max_compressed (lz4 : List Nat → Nat → Int × (Nat → Nat))
    (s : MirrorState) (p : PacketArgs) :
    (process_frame_packet lz4 s p).state.max_compressed = s.max_compressed := by
  unfold process_frame_packet
  split_ifs <;> simp

lemma process_dropped (lz4 : List Nat → Nat → Int × (Nat → Nat))
    (s : MirrorState) (p : PacketArgs) :
    (process_frame_packet lz4 s p).state.dropped_frames =
      (track_gap s p.seq).dropped_frames := by
  unfold process_frame_packet
  split_ifs <;> simp

/-- A small concrete decoder state (2×2 frame) used by witnesses. -/
def witState : MirrorState :=
  { frame_w := 2, frame_h := 2, pixel_count := 4, max_compressed := 260,
    current_frame := fun _ => 0, compressed_buf := fun _ => 0,
    decompress_scratch := fun _ => 0, render0 := fun _ => 0xFF,
    render1 := fun _ => 0xFF, ready_index := 0, has_ready_frame := false,
    ready_seq := 0, overwritten_frames := 0, dropped_frames := 0,
    skipped_deltas := 0, last_seq := 0, has_last_seq := false }

/-- A concrete decompressor whose output size is 4 and whose scratch
holds `j + 10` at byte `j`. -/
def lz4A : List Nat → Nat → Int × (Nat → Nat) := fun _ _ => ((4 : Int), fun j => j + 10)

/-- A concrete decompressor whose output size is 4 and whose scratch
holds `j + 1` at byte `j`. -/
def lz4B : List Nat → Nat → Int × (Nat → Nat) := fun _ _ => ((4 : Int), fun j => j + 1)

/-- A concrete decompressor that always fails (returns size 0, as
`LZ4_decompress_safe` does on a zero-length input). -/
def lz4Fail : List Nat → Nat → Int × (Nat → Nat) := fun _ _ => ((0 : Int), fun _ => 0)

/-- C1: a keyframe packet whose payload decompresses to exactly
`W·H` bytes `k` replaces every byte of the current frame with `k`,
regardless of the frame's prior contents (mirror_native.c lines
850-851: `memcpy(g_current_frame, decompress_buf, g_pixel_count)`). -/
theorem keyframe_replaces_frame (lz4 : List Nat → Nat → Int × (Nat → Nat))
    (s : MirrorState) (p : PacketArgs)
    (hlen : ¬ p.payload.length > s.max_compressed)
    (hflag : p.flags &&& FLAG_KEYFRAME ≠ 0)
    (hsz : (lz4 p.payload s.pixel_count).1 = (s.pixel_count : Int))
    (i : Nat) (hi : i < s.pixel_count) :
    (process_frame_packet lz4 s p).state.current_frame i =
      (lz4 p.payload s.pixel_count).2 i := by
  unfold process_frame_packet
  rw [seq_track_max_compressed, seq_track_pixel_count, if_neg hlen,
    if_neg (not_not_intro hsz)]
  dsimp only
  rw [publish_frame_current_frame]
  unfold reconstruct_step
  rw [if_pos hflag]
  dsimp only
  rw [ingest_payload_pixel_count, seq_track_pixel_count,
    ingest_payload_current_frame, seq_track_current_frame]
  simp [memcpy_bytes, hi]

/-- Witness for C1 at a concrete keyframe packet. -/
theorem keyframe_replaces_frame_witness :
    (0 : Nat) < witState.pixel_count ∧
    (process_frame_packet lz4A witState ⟨1, 7, [9]⟩).state.current_frame 0 =
      (lz4A [9] witState.pixel_count).2 0 :=
  ⟨by decide, keyframe_replaces_frame lz4A witState ⟨1, 7, [9]⟩ (by decide)
    (by decide) (by decide) 0 (by decide)⟩

/-- Counterexample to C2 as stated: a delta packet whose payload is
shorter than 256 bytes decompresses to exactly `W·H` bytes, yet the
XOR is skipped (mirror_native.c line 852, `payload_len < 256`), so the
current frame is not `C₀ ⊕ d`. -/
theorem delta_xor_claim_cex :
    (process_frame_packet lz4B witState ⟨0, 5, [9]⟩).state.current_frame 0 ≠
      witState.current_frame 0 ^^^ (lz4B [9] witState.pixel_count).2 0 := by
  decide

/-- C2 (amended): for a delta packet with payload length at least 256
whose payload decompresses to exactly `W·H` bytes `d`, every byte of
the new frame is the bytewise XOR of the old frame with `d`; the
chunked vector implementation (`apply_delta_neon`) is observably pure
bytewise XOR.  Packets with payload length below 256 are skipped
(see the counterexample). -/
theorem delta_applies_bytewise_xor (lz4 : List Nat → Nat → Int × (Nat → Nat))
    (s : MirrorState) (p : PacketArgs)
    (hlen : ¬ p.payload.length > s.max_compressed)
    (hflag : p.flags &&& FLAG_KEYFRAME = 0)
    (hbig : 256 ≤ p.payload.length)
    (hsz : (lz4 p.payload s.pixel_count).1 = (s.pixel_count : Int))
    (i : Nat) (hi : i < s.pixel_count) :
    (process_frame_packet lz4 s p).state.current_frame i =
      s.current_frame i ^^^ (lz4 p.payload s.pixel_count).2 i := by
  unfold process_frame_packet
  rw [seq_track_max_compressed, seq_track_pixel_count, if_neg hlen,
    if_neg (not_not_intro hsz)]
  dsimp only
  rw [publish_frame_current_frame]
  unfold reconstruct_step
  rw [if_neg (not_not_intro hflag), if_neg (by omega : ¬ p.payload.length < 256)]
  dsimp only
  rw [ingest_payload_pixel_count, seq_track_pixel_count,
    ingest_payload_current_frame, seq_track_current_frame,
    apply_delta_neon_spec]
  simp [xorBelow, hi]

set_option maxRecDepth 8192 in
/-- Witness for the amended C2 at a concrete 256-byte delta packet. -/
theorem delta_applies_bytewise_xor_witness :
    (256 : Nat) ≤ (List.replicate 256 3).length ∧
    (process_frame_packet lz4B witState ⟨0, 8, List.replicate 256 3⟩).state.current_frame 2 =
      witState.current_frame 2 ^^^ (lz4B (List.replicate 256 3) witState.pixel_count).2 2 :=
  ⟨by decide, delta_applies_bytewise_xor lz4B witState ⟨0, 8, List.replicate 256 3⟩
    (by decide) (by decide) (by decide) (by decide) 2 (by decide)⟩

/-- C4: when `LZ4_decompress_safe` does not return exactly `W·H`
(mirror_native.c lines 844-848): no ack or publish happens; a keyframe
mismatch breaks the connection loop; a delta mismatch leaves the
current frame byte-for-byte unchanged and continues with the next
packet. -/
theorem lz4_mismatch_policy (lz4 : List Nat → Nat → Int × (Nat → Nat))
    (s : MirrorState) (p : PacketArgs)
    (hlen : ¬ p.payload.length > s.max_compressed)
    (hsz : (lz4 p.payload s.pixel_count).1 ≠ (s.pixel_count : Int)) :
    (process_frame_packet lz4 s p).events = [] ∧
    (p.flags &&& FLAG_KEYFRAME ≠ 0 → (process_frame_packet lz4 s p).ctl = .brk) ∧
    (p.flags &&& FLAG_KEYFRAME = 0 → (process_frame_packet lz4 s p).ctl = .cont ∧
      (process_frame_packet lz4 s p).state.current_frame = s.current_frame) := by
  unfold process_frame_packet
  rw [seq_track_max_compressed, seq_track_pixel_count, if_neg hlen, if_pos hsz]
  by_cases hf : p.flags &&& FLAG_KEYFRAME ≠ 0
  · rw [if_pos hf]
    refine ⟨rfl, fun _ => rfl, fun hf0 => absurd hf0 hf⟩
  · rw [if_neg hf]
    exact ⟨rfl, fun hf1 => absurd hf1 hf, fun _ => ⟨rfl, by simp⟩⟩

/-- Witness for C4 at a concrete failing delta packet. -/
theorem lz4_mismatch_policy_witness :
    (lz4Fail [9] witState.pixel_count).1 ≠ (witState.pixel_count : Int) ∧
    (process_frame_packet lz4Fail witState ⟨0, 3, [9]⟩).events = [] :=
  ⟨by decide, (lz4_mismatch_policy lz4Fail witState ⟨0, 3, [9]⟩ (by decide) (by decide)).1⟩

lemma toInt32_eval_small (n : Nat) (h : n % U32_MOD < INT32_HALF) :
    toInt32 n = ((n % U32_MOD : Nat) : Int) := by
  unfold toInt32
  rw [if_pos h]

lemma toInt32_eval_large (n : Nat) (h : ¬ n % U32_MOD < INT32_HALF) :
    toInt32 n = ((n % U32_MOD : Nat) : Int) - (U32_MOD : Int) := by
  unfold toInt32
  rw [if_neg h]

/-- Evaluation of the gap statistics when a later sequence number
arrives: the C cast-and-bound check adds the gap only when it is below
1000. -/
lemma track_gap_eval (s : MirrorState) (q : Nat)
    (hq : q < U32_MOD) (hl : s.last_seq < U32_MOD)
    (ht : s.has_last_seq = true) (hgap : s.last_seq + 1 < q) :
    (track_gap s q).dropped_frames =
      if q - s.last_seq - 1 < 1000 then s.dropped_frames + (q - s.last_seq - 1)
      else s.dropped_frames := by
  have hU : U32_MOD = 4294967296 := rfl
  have hH : INT32_HALF = 2147483648 := rfl
  have hne : q ≠ (s.last_seq + 1) % U32_MOD := by
    rw [Nat.mod_eq_of_lt (by omega)]
    omega
  have hmod : (U32_MOD + q - s.last_seq - 1) % U32_MOD = q - s.last_seq - 1 := by
    rw [hU]
    rw [hU] at hq hl
    omega
  unfold track_gap
  rw [if_pos ⟨ht, hne⟩]
  by_cases hsmall : q - s.last_seq - 1 < 1000
  · have h1 : (U32_MOD + q - s.last_seq - 1) % U32_MOD < INT32_HALF := by
      rw [hmod, hH]
      omega
    rw [toInt32_eval_small _ h1, hmod, if_pos (by constructor <;> omega), if_pos hsmall]
    simp
  · by_cases h1 : (U32_MOD + q - s.last_seq - 1) % U32_MOD < INT32_HALF
    · rw [toInt32_eval_small _ h1, hmod, if_neg (by omega), if_neg hsmall]
    · rw [toInt32_eval_large _ h1, hmod, if_neg (by omega), if_neg hsmall]

/-- `witState` with a tracked previous sequence number of 0. -/
def gapState : MirrorState := { witState with has_last_seq := true, last_seq := 0 }

/-- Counterexample to C6 as stated: with `last_seq = 0` tracked, a
packet with `seq = 1001` has a gap of 1000; the code's `gap < 1000`
bound (mirror_native.c line 820) means the dropped-frame counter does
not increase, while the claim requires an increase of exactly 1000. -/
theorem seq_gap_claim_cex :
    (process_frame_packet lz4B gapState ⟨0, 1001, [9]⟩).state.dropped_frames ≠
      gapState.dropped_frames + (1001 - gapState.last_seq - 1) := by
  decide

/-- C6 (amended): with `last_seq` tracked and `seq > last_seq + 1`,
the dropped-frame counter increases by exactly `seq - last_seq - 1`
when that gap is below 1000, and is unchanged otherwise (the code
bounds the counted gap, lines 818-821); in either case the gap logic
does not alter frame reconstruction — the resulting current frame
depends only on the prior frame contents, `pixel_count` and
`max_compressed`, not on the sequence-tracking fields. -/
theorem seq_gap_counting (lz4 : List Nat → Nat → Int × (Nat → Nat))
    (s : MirrorState) (p : PacketArgs)
    (hseq : p.seq < U32_MOD) (hlast : s.last_seq < U32_MOD)
    (htracked : s.has_last_seq = true) (hgap : s.last_seq + 1 < p.seq) :
    ((p.seq - s.last_seq - 1 < 1000 →
      (process_frame_packet lz4 s p).state.dropped_frames =
        s.dropped_frames + (p.seq - s.last_seq - 1)) ∧
     (1000 ≤ p.seq - s.last_seq - 1 →
      (process_frame_packet lz4 s p).state.dropped_frames = s.dropped_frames)) ∧
    (∀ t : MirrorState, t.current_frame = s.current_frame →
      t.pixel_count = s.pixel_count → t.max_compressed = s.max_compressed →
      (process_frame_packet lz4 t p).state.current_frame =
        (process_frame_packet lz4 s p).state.current_frame) := by
  constructor
  · have h := track_gap_eval s p.seq hseq hlast htracked hgap
    constructor
    · intro hs
      rw [process_dropped, h, if_pos hs]
    · intro hb
      rw [process_dropped, h, if_neg (by omega)]
  · intro t hcf hpc hmc
    unfold process_frame_packet
    simp only [seq_track_max_compressed, seq_track_pixel_count, hpc, hmc]
    split_ifs with h1 h2 h3
    · simp [hcf]
    · simp [hcf]
    · simp [hcf]
    · dsimp only
      rw [publish_frame_current_frame, publish_frame_current_frame]
      unfold reconstruct_step
      split_ifs with h4 h5
      · dsimp only
        rw [ingest_payload_pixel_count, seq_track_pixel_count,
          ingest_payload_pixel_count, seq_track_pixel_count,
          ingest_payload_current_frame, seq_track_current_frame,
          ingest_payload_current_frame, seq_track_current_frame, hcf, hpc]
      · dsimp only
        rw [ingest_payload_current_frame, seq_track_current_frame,
          ingest_payload_current_frame, seq_track_current_frame, hcf]
      · dsimp only
        rw [ingest_payload_pixel_count, seq_track_pixel_count,
          ingest_payload_pixel_count, seq_track_pixel_count,
          ingest_payload_current_frame, seq_track_current_frame,
          ingest_payload_current_frame, seq_track_current_frame, hcf, hpc]

/-- Witness for the amended C6 at a concrete gap of 499. -/
theorem seq_gap_counting_witness :
    gapState.last_seq + 1 < 500 ∧
    (process_frame_packet lz4B gapState ⟨0, 500, [9]⟩).state.dropped_frames =
      gapState.dropped_frames + (500 - gapState.last_seq - 1) :=
  ⟨by decide, (seq_gap_counting lz4B gapState ⟨0, 500, [9]⟩ (by decide) (by decide)
      (by decide) (by decide)).1.1 (by decide)⟩

/-! ## Ack discipline across a run of frame packets (C3) -/

/-- The inner packet loop over a list of frame packets: each packet is
processed in order; a `brk` outcome ends the connection.  The second
component is the concatenated event trace in program order. -/
def run_packets (lz4 : List Nat → Nat → Int × (Nat → Nat)) :
    MirrorState → List PacketArgs → MirrorState × List Event
  | s, [] => (s, [])
  | s, p :: rest =>
    match process_frame_packet lz4 s p with
    | ⟨s', evs, .brk⟩ => (s', evs)
    | ⟨s', evs, .cont⟩ =>
      match run_packets lz4 s' rest with
      | (t, evs2) => (t, evs ++ evs2)

/-- The ack payloads appearing in an event trace, in trace order. -/
def acksOf : List Event → List (List Nat)
  | [] => []
  | .ack b :: rest => b :: acksOf rest
  | .publish _ :: rest => acksOf rest

/-- Specification-side ack stream (from the spec's FIFO ack
discipline): exactly one ack per successfully reconstructed frame
packet, in arrival order; oversized payloads and keyframe
decompression failures end the connection, delta decompression
failures are silently skipped. -/
def spec_acks (lz4 : List Nat → Nat → Int × (Nat → Nat)) (pc maxc : Nat) :
    List PacketArgs → List (List Nat)
  | [] => []
  | p :: rest =>
    if p.payload.length > maxc then []
    else if (lz4 p.payload pc).1 ≠ (pc : Int) then
      (if p.flags &&& FLAG_KEYFRAME ≠ 0 then [] else spec_acks lz4 pc maxc rest)
    else ack_bytes p.seq :: spec_acks lz4 pc maxc rest

lemma process_branch_oversize (lz4 : List Nat → Nat → Int × (Nat → Nat))
    (s : MirrorState) (p : PacketArgs) (h : p.payload.length > s.max_compressed) :
    process_frame_packet lz4 s p = ⟨seq_track s p.seq, [], .brk⟩ := by
  unfold process_frame_packet
  rw [seq_track_max_compressed, if_pos h]

lemma process_branch_mismatch (lz4 : List Nat → Nat → Int × (Nat → Nat))
    (s : MirrorState) (p : PacketArgs) (h1 : ¬ p.payload.length > s.max_compressed)
    (h2 : (lz4 p.payload s.pixel_count).1 ≠ (s.pixel_count : Int)) :
    process_frame_packet lz4 s p =
      ⟨ingest_payload (seq_track s p.seq) p.payload, [],
        if p.flags &&& FLAG_KEYFRAME ≠ 0 then .brk else .cont⟩ := by
  unfold process_frame_packet
  rw [seq_track_max_compressed, seq_track_pixel_count, if_neg h1, if_pos h2]
  split_ifs <;> rfl

lemma process_branch_ok (lz4 : List Nat → Nat → Int × (Nat → Nat))
    (s : MirrorState) (p : PacketArgs) (h1 : ¬ p.payload.length > s.max_compressed)
    (h2 : (lz4 p.payload s.pixel_count).1 = (s.pixel_count : Int)) :
    process_frame_packet lz4 s p =
      ⟨publish_frame
        (reconstruct_step (ingest_payload (seq_track s p.seq) p.payload) p
          (lz4 p.payload s.pixel_count).2)
        (reconstruct_step (ingest_payload (seq_track s p.seq) p.payload) p
          (lz4 p.payload s.pixel_count).2).current_frame
        p.seq,
       [.ack (ack_bytes p.seq), .publish p.seq], .cont⟩ := by
  unfold process_frame_packet
  rw [seq_track_max_compressed, seq_track_pixel_count, if_neg h1,
    if_neg (not_not_intro h2)]

lemma run_packets_acks (lz4 : List Nat → Nat → Int × (Nat → Nat)) :
    ∀ (ps : List PacketArgs) (s : MirrorState),
      acksOf (run_packets lz4 s ps).2 = spec_acks lz4 s.pixel_count s.max_compressed ps := by
  intro ps
  induction ps with
  | nil => intro s; rfl
  | cons p rest ih =>
    intro s
    by_cases h1 : p.payload.length > s.max_compressed
    · simp only [run_packets, process_branch_oversize lz4 s p h1, spec_acks, if_pos h1]
      rfl
    · by_cases h2 : (lz4 p.payload s.pixel_count).1 = (s.pixel_count : Int)
      · simp only [run_packets, process_branch_ok lz4 s p h1 h2, spec_acks, if_neg h1,
          if_neg (not_not_intro h2)]
        have := ih (publish_frame
          (reconstruct_step (ingest_payload (seq_track s p.seq) p.payload) p
            (lz4 p.payload s.pixel_count).2)
          (reconstruct_step (ingest_payload (seq_track s p.seq) p.payload) p
            (lz4 p.payload s.pixel_count).2).current_frame
          p.seq)
        simp only [publish_frame_pixel_count, publish_frame_max_compressed,
          reconstruct_step_pixel_count, reconstruct_step_max_compressed,
          ingest_payload_pixel_count, ingest_payload_max_compressed,
          seq_track_pixel_count, seq_track_max_compressed] at this
        simp only [acksOf]
        rw [← this]
        rfl
      · by_cases hf : p.flags &&& FLAG_KEYFRAME ≠ 0
        · simp only [run_packets, process_branch_mismatch lz4 s p h1 h2, if_pos hf,
            spec_acks, if_neg h1, if_pos h2]
          rfl
        · simp only [run_packets, process_branch_mismatch lz4 s p h1 h2, if_neg hf,
            spec_acks, if_neg h1, if_pos h2]
          have := ih (ingest_payload (seq_track s p.seq) p.payload)
          simp only [ingest_payload_pixel_count, ingest_payload_max_compressed,
            seq_track_pixel_count, seq_track_max_compressed] at this
          rw [← this]
          rfl

/-- C3: every frame packet whose payload decompresses to exactly
`W·H` bytes — including tiny deltas whose XOR is skipped — produces
exactly one 6-byte ack `{0xDA, 0x7A, seq LE}` in its event trace,
positioned after reconstruction and before the handoff publish
(mirror_native.c lines 859-860), and the ack stream of a whole run of
packets lists the acked sequence numbers in packet arrival order. -/
theorem frame_ack_discipline (lz4 : List Nat → Nat → Int × (Nat → Nat)) :
    (∀ q : Nat, (ack_bytes q).length = 6 ∧
      ack_bytes q = [0xDA, 0x7A, q &&& 0xFF, (q >>> 8) &&& 0xFF,
        (q >>> 16) &&& 0xFF, (q >>> 24) &&& 0xFF]) ∧
    (∀ (s : MirrorState) (p : PacketArgs),
      ¬ p.payload.length > s.max_compressed →
      (lz4 p.payload s.pixel_count).1 = (s.pixel_count : Int) →
      (process_frame_packet lz4 s p).events =
        [.ack (ack_bytes p.seq), .publish p.seq]) ∧
    (∀ (s : MirrorState) (ps : List PacketArgs),
      acksOf (run_packets lz4 s ps).2 =
        spec_acks lz4 s.pixel_count s.max_compressed ps) := by
  refine ⟨fun q => ⟨rfl, rfl⟩, fun s p h1 h2 => ?_, fun s ps => run_packets_acks lz4 ps s⟩
  rw [process_branch_ok lz4 s p h1 h2]

/-- Witness for C3: a tiny skipped delta still acks and publishes. -/
theorem frame_ack_discipline_witness :
    (lz4B [9] witState.pixel_count).1 = (witState.pixel_count : Int) ∧
    (process_frame_packet lz4B witState ⟨0, 5, [9]⟩).events =
      [.ack (ack_bytes 5), .publish 5] :=
  ⟨by decide, (frame_ack_discipline lz4B).2.1 witState ⟨0, 5, [9]⟩ (by decide) (by decide)⟩

/-! ## Disconnect handling (C9) -/

/-- Disconnect handling (mirror_native.c lines 913-916): the current
frame is cleared to white (`memset(g_current_frame, 0xFF,
g_pixel_count)`) and published with sequence `g_ready_seq + 1`. -/
def on_disconnect (s : MirrorState) : MirrorState :=
  publish_frame
    { s with current_frame := fun j => if j < s.pixel_count then 0xFF else s.current_frame j }
    ({ s with current_frame :=
        fun j => if j < s.pixel_count then 0xFF else s.current_frame j }).current_frame
    ((s.ready_seq + 1) % U32_MOD)

/-- `witState` with both handoff buffers holding stale zero bytes. -/
def staleState : MirrorState :=
  { witState with render0 := fun _ => 0, render1 := fun _ => 0 }

/-- Counterexample to C9 as stated: on disconnect only the current
frame is cleared and copied into the write-side handoff buffer
(`1 - ready_index`); the other handoff buffer keeps its stale bytes.
With `ready_index = 0`, `buf[0]` still holds 0 afterwards, so it is
not the case that both buffers are cleared to 0xFF. -/
theorem disconnect_clears_claim_cex :
    ¬ ((on_disconnect staleState).render0 0 = 0xFF ∧
       (on_disconnect staleState).render1 0 = 0xFF) := by
  decide

/-- C9 (amended): on every disconnect the current frame is cleared to
0xFF over all `pixel_count` bytes and re-published to the handoff, so
the ready-side buffer the presenter will take next is all-white and
`has_ready_frame` is set — the presenter next shows an all-white
surface.  The non-ready handoff buffer is not cleared. -/
theorem disconnect_publishes_white (s : MirrorState) (i : Nat) (hi : i < s.pixel_count) :
    (on_disconnect s).has_ready_frame = true ∧
    (if (on_disconnect s).ready_index = 0 then (on_disconnect s).render0 i
     else (on_disconnect s).render1 i) = 0xFF := by
  unfold on_disconnect publish_frame
  by_cases h : s.ready_index = 0 <;> simp [h, memcpy_bytes, hi]

/-- Witness for the amended C9. -/
theorem disconnect_publishes_white_witness :
    (0 : Nat) < staleState.pixel_count ∧
    ((on_disconnect staleState).has_ready_frame = true ∧
     (if (on_disconnect staleState).ready_index = 0 then (on_disconnect staleState).render0 0
      else (on_disconnect staleState).render1 0) = 0xFF) :=
  ⟨by decide, disconnect_publishes_white staleState 0 (by decide)⟩

/-! ## The wire framer (C7, C10) -/

/-- Little-endian 32-bit decode of four header bytes, the C
expression `b0 | (b1 << 8) | (b2 << 16) | (b3 << 24)`. -/
def le32 (b0 b1 b2 b3 : Nat) : Nat :=
  b0 ||| (b1 <<< 8) ||| (b2 <<< 16) ||| (b3 <<< 24)

/-- Little-endian 16-bit decode, the C expression `b0 | (b1 << 8)`. -/
def le16 (b0 b1 : Nat) : Nat := b0 ||| (b1 <<< 8)

/-- A parsed packet: a frame with its header fields and payload
bytes, a resolution command with its 4 raw body bytes, or any other
command with its single value byte. -/
inductive Packet
  | frame (flags seq payload_len : Nat) (payload : List Nat)
  | cmdResolution (r0 r1 r2 r3 : Nat)
  | cmdOther (cmd value : Nat)
deriving DecidableEq

/-- The framing logic of `decode_thread` (lines 748-832) over a byte
stream: 2 magic bytes, dispatch on the second byte, command body or
9-byte frame header plus `length` payload bytes.  `none` models
failing the connection (bad magic, unknown type, oversized length) or
`read_exact` hitting end of stream; `some (pkt, rest)` returns the
packet and the unconsumed bytes. -/
def read_packet (max_compressed : Nat) (stream : List Nat) : Option (Packet × List Nat) :=
  match stream with
  | b0 :: b1 :: rest =>
    if b0 ≠ MAGIC_FRAME_0 then none
    else if b1 = MAGIC_CMD_1 then
      match rest with
      | cmd :: rest1 =>
        if cmd = CMD_RESOLUTION then
          match rest1 with
          | r0 :: r1 :: r2 :: r3 :: rest2 => some (.cmdResolution r0 r1 r2 r3, rest2)
          | _ => none
        else
          match rest1 with
          | v :: rest2 => some (.cmdOther cmd v, rest2)
          | _ => none
      | [] => none
    else if b1 ≠ MAGIC_FRAME_1 then none
    else
      match rest with
      | h0 :: h1 :: h2 :: h3 :: h4 :: h5 :: h6 :: h7 :: h8 :: rest1 =>
        if le32 h5 h6 h7 h8 > max_compressed then none
        else if rest1.length < le32 h5 h6 h7 h8 then none
        else some (.frame h0 (le32 h1 h2 h3 h4) (le32 h5 h6 h7 h8)
            (rest1.take (le32 h5 h6 h7 h8)), rest1.drop (le32 h5 h6 h7 h8))
      | _ => none
  | _ => none

/-- C7: the framer fails the connection when the first magic byte is
not 0xDA, when the second byte is neither 0x7E nor 0x7F, or when a
frame packet's length field exceeds `W·H + 256` (the value of
`g_max_compressed`); a frame packet within the bound is parsed,
consuming its 9-byte header and exactly `length` payload bytes. -/
theorem framer_policy :
    (∀ (maxc b0 b1 : Nat) (rest : List Nat), b0 ≠ 0xDA →
      read_packet maxc (b0 :: b1 :: rest) = none) ∧
    (∀ (maxc b1 : Nat) (rest : List Nat), b1 ≠ 0x7E → b1 ≠ 0x7F →
      read_packet maxc (0xDA :: b1 :: rest) = none) ∧
    (∀ (w h h0 h1 h2 h3 h4 h5 h6 h7 h8 : Nat) (body : List Nat),
      w * h + 256 < le32 h5 h6 h7 h8 →
      read_packet (w * h + 256)
        (0xDA :: 0x7E :: h0 :: h1 :: h2 :: h3 :: h4 :: h5 :: h6 :: h7 :: h8 :: body) =
        none) ∧
    (∀ (w h h0 h1 h2 h3 h4 h5 h6 h7 h8 : Nat) (body : List Nat),
      le32 h5 h6 h7 h8 ≤ w * h + 256 →
      le32 h5 h6 h7 h8 ≤ body.length →
      read_packet (w * h + 256)
        (0xDA :: 0x7E :: h0 :: h1 :: h2 :: h3 :: h4 :: h5 :: h6 :: h7 :: h8 :: body) =
        some (.frame h0 (le32 h1 h2 h3 h4) (le32 h5 h6 h7 h8)
          (body.take (le32 h5 h6 h7 h8)), body.drop (le32 h5 h6 h7 h8))) := by
  refine ⟨?_, ?_, ?_, ?_⟩
  · intro maxc b0 b1 rest hb0
    simp only [read_packet, MAGIC_FRAME_0]
    rw [if_pos hb0]
  · intro maxc b1 rest h7e h7f
    simp only [read_packet, MAGIC_FRAME_0, MAGIC_FRAME_1, MAGIC_CMD_1]
    rw [if_neg (by decide), if_neg h7f, if_pos h7e]
  · intro w h h0 h1 h2 h3 h4 h5 h6 h7 h8 body hlen
    simp only [read_packet, MAGIC_FRAME_0, MAGIC_FRAME_1, MAGIC_CMD_1]
    rw [if_neg (by decide), if_neg (by decide), if_neg (by decide), if_pos (by omega)]
  · intro w h h0 h1 h2 h3 h4 h5 h6 h7 h8 body hlen hbody
    simp only [read_packet, MAGIC_FRAME_0, MAGIC_FRAME_1, MAGIC_CMD_1]
    rw [if_neg (by decide), if_neg (by decide), if_neg (by decide),
      if_neg (by omega), if_neg (by omega)]

/-- Witness for C7: a concrete in-bounds frame packet is parsed and
consumes exactly its 2-byte payload. -/
theorem framer_policy_witness :
    le32 2 0 0 0 ≤ 1 * 1 + 256 ∧
    read_packet (1 * 1 + 256)
      (0xDA :: 0x7E :: 1 :: 7 :: 0 :: 0 :: 0 :: 2 :: 0 :: 0 :: 0 :: [5, 6]) =
      some (.frame 1 (le32 7 0 0 0) (le32 2 0 0 0)
        ([5, 6].take (le32 2 0 0 0)), [5, 6].drop (le32 2 0 0 0)) :=
  ⟨by decide, framer_policy.2.2.2 1 1 1 7 0 0 0 2 0 0 0 [5, 6] (by decide) (by decide)⟩

/-! ## Resolution reallocation (C5, C10) -/

/-- Events of the reallocation path.  Buffer identities: 0 = current
frame, 1 = compressed buffer, 2 = decompression scratch, 3 and 4 =
the two handoff buffers.  `allocNew` is a `calloc`/`malloc` call for a
new buffer, `freeNew` frees a just-allocated buffer on the failure
path, `freeOld` frees an installed buffer, `setGeometry` is the
`ANativeWindow_setBuffersGeometry` call after a successful change. -/
inductive REvent
  | allocNew (which : Fin 5)
  | freeNew (which : Fin 5)
  | freeOld (which : Fin 5)
  | setGeometry (w h : Nat)
deriving DecidableEq

/-- `reallocate_buffers(new_w, new_h, &decompress_buf)` (lines
500-542): allocate all five new buffers first (`calloc` zeroes the
new current frame; the other four hold arbitrary contents `junk i`,
with the two handoff buffers then memset to 0xFF); only if all five
succeed (`ok i` models each allocation) are the old buffers freed and
the new ones installed, `has_ready` reset and `(W, H, pixel_count,
max_compressed)` updated; otherwise the new buffers are freed and the
state is left untouched. -/
def reallocate_buffers (s : MirrorState) (new_w new_h : Nat) (ok : Fin 5 → Bool)
    (junk : Fin 5 → Nat → Nat) : Bool × MirrorState × List REvent :=
  if ok 0 && ok 1 && ok 2 && ok 3 && ok 4 then
    (true,
      { s with
        current_frame := fun j => if j < new_w * new_h then 0 else junk 0 j,
        compressed_buf := junk 1,
        decompress_scratch := junk 2,
        render0 := fun j => if j < new_w * new_h then 0xFF else junk 3 j,
        render1 := fun j => if j < new_w * new_h then 0xFF else junk 4 j,
        ready_index := 0,
        has_ready_frame := false,
        frame_w := new_w,
        frame_h := new_h,
        pixel_count := new_w * new_h,
        max_compressed := new_w * new_h + 256 },
      [.allocNew 0, .allocNew 1, .allocNew 2, .allocNew 3, .allocNew 4,
       .freeOld 0, .freeOld 1, .freeOld 2, .freeOld 3, .freeOld 4])
  else
    (false, s,
      [.allocNew 0, .allocNew 1, .allocNew 2, .allocNew 3, .allocNew 4,
       .freeNew 0, .freeNew 1, .freeNew 2, .freeNew 3, .freeNew 4])

lemma reallocate_fail_eq (s : MirrorState) (new_w new_h : Nat) (ok : Fin 5 → Bool)
    (junk : Fin 5 → Nat → Nat) (h : (ok 0 && ok 1 && ok 2 && ok 3 && ok 4) = false) :
    reallocate_buffers s new_w new_h ok junk = (false, s,
      [.allocNew 0, .allocNew 1, .allocNew 2, .allocNew 3, .allocNew 4,
       .freeNew 0, .freeNew 1, .freeNew 2, .freeNew 3, .freeNew 4]) := by
  unfold reallocate_buffers
  rw [if_neg (by simp [h])]

lemma reallocate_ok_eq (s : MirrorState) (new_w new_h : Nat) (ok : Fin 5 → Bool)
    (junk : Fin 5 → Nat → Nat) (h : (ok 0 && ok 1 && ok 2 && ok 3 && ok 4) = true) :
    reallocate_buffers s new_w new_h ok junk = (true,
      { s with
        current_frame := fun j => if j < new_w * new_h then 0 else junk 0 j,
        compressed_buf := junk 1,
        decompress_scratch := junk 2,
        render0 := fun j => if j < new_w * new_h then 0xFF else junk 3 j,
        render1 := fun j => if j < new_w * new_h then 0xFF else junk 4 j,
        ready_index := 0,
        has_ready_frame := false,
        frame_w := new_w,
        frame_h := new_h,
        pixel_count := new_w * new_h,
        max_compressed := new_w * new_h + 256 },
      [.allocNew 0, .allocNew 1, .allocNew 2, .allocNew 3, .allocNew 4,
       .freeOld 0, .freeOld 1, .freeOld 2, .freeOld 3, .freeOld 4]) := by
  unfold reallocate_buffers
  rw [if_pos h]

/-- The `CMD_RESOLUTION` handler of `decode_thread` (lines 762-778):
decode the two little-endian `u16` fields, check `0 < w, h ≤ 4096`,
reallocate, and on success set the surface geometry; out-of-range
values do nothing.  Either way the loop continues with the next
packet. -/
def handle_resolution (s : MirrorState) (r0 r1 r2 r3 : Nat) (ok : Fin 5 → Bool)
    (junk : Fin 5 → Nat → Nat) : MirrorState × List REvent :=
  if 0 < le16 r0 r1 ∧ 0 < le16 r2 r3 ∧ le16 r0 r1 ≤ 4096 ∧ le16 r2 r3 ≤ 4096 then
    (if (reallocate_buffers s (le16 r0 r1) (le16 r2 r3) ok junk).1 then
      ((reallocate_buffers s (le16 r0 r1) (le16 r2 r3) ok junk).2.1,
       (reallocate_buffers s (le16 r0 r1) (le16 r2 r3) ok junk).2.2 ++
         [.setGeometry (le16 r0 r1) (le16 r2 r3)])
    else
      ((reallocate_buffers s (le16 r0 r1) (le16 r2 r3) ok junk).2.1,
       (reallocate_buffers s (le16 r0 r1) (le16 r2 r3) ok junk).2.2))
  else (s, [])

/-- C5: for accepted resolution commands, every one of the five
allocations precedes every free of an old buffer in the event trace;
if any allocation fails the old state (buffers and the four size
fields) is kept unchanged; on success the sizes are updated and
`has_ready` is reset; bytes `00 10 00 10` (4096×4096) are accepted
while `01 10 00 10` (width 4097) are rejected. -/
theorem realloc_atomic (s : MirrorState) (new_w new_h : Nat)
    (ok : Fin 5 → Bool) (junk : Fin 5 → Nat → Nat) :
    (∀ (a b : Fin 5) (i j : Fin (reallocate_buffers s new_w new_h ok junk).2.2.length),
      (reallocate_buffers s new_w new_h ok junk).2.2.get i = .freeOld a →
      (reallocate_buffers s new_w new_h ok junk).2.2.get j = .allocNew b →
      (j : Nat) < (i : Nat)) ∧
    ((∃ i, ok i = false) → (reallocate_buffers s new_w new_h ok junk).1 = false ∧
      (reallocate_buffers s new_w new_h ok junk).2.1 = s) ∧
    ((∀ i, ok i = true) →
      (reallocate_buffers s new_w new_h ok junk).1 = true ∧
      (reallocate_buffers s new_w new_h ok junk).2.1.frame_w = new_w ∧
      (reallocate_buffers s new_w new_h ok junk).2.1.frame_h = new_h ∧
      (reallocate_buffers s new_w new_h ok junk).2.1.pixel_count = new_w * new_h ∧
      (reallocate_buffers s new_w new_h ok junk).2.1.max_compressed = new_w * new_h + 256 ∧
      (reallocate_buffers s new_w new_h ok junk).2.1.has_ready_frame = false) ∧
    ((∀ i, ok i = true) →
      (handle_resolution s 0 16 0 16 ok junk).1.frame_w = 4096 ∧
      (handle_resolution s 0 16 0 16 ok junk).1.frame_h = 4096) ∧
    handle_resolution s 1 16 0 16 ok junk = (s, []) := by
  refine ⟨?_, ?_, ?_, ?_, ?_⟩
  · by_cases hok : (ok 0 && ok 1 && ok 2 && ok 3 && ok 4) = true
    · rw [reallocate_ok_eq s new_w new_h ok junk hok]
      dsimp only
      decide
    · rw [reallocate_fail_eq s new_w new_h ok junk (by simpa using hok)]
      dsimp only
      decide
  · rintro ⟨i, hi⟩
    have hok : (ok 0 && ok 1 && ok 2 && ok 3 && ok 4) = false := by
      fin_cases i <;> simp_all
    rw [reallocate_fail_eq s new_w new_h ok junk hok]
    exact ⟨rfl, rfl⟩
  · intro hall
    have hok : (ok 0 && ok 1 && ok 2 && ok 3 && ok 4) = true := by
      simp [hall]
    rw [reallocate_ok_eq s new_w new_h ok junk hok]
    exact ⟨rfl, rfl, rfl, rfl, rfl, rfl⟩
  · intro hall
    have hok : (ok 0 && ok 1 && ok 2 && ok 3 && ok 4) = true := by
      simp [hall]
    unfold handle_resolution
    rw [if_pos (by decide), reallocate_ok_eq s (le16 0 16) (le16 0 16) ok junk hok]
    dsimp only
    rw [if_pos rfl]
    constructor
    · dsimp only
      decide
    · dsimp only
      decide
  · unfold handle_resolution
    rw [if_neg (by decide)]

/-- Witness for C5 at a concrete 3×2 reallocation. -/
theorem realloc_atomic_witness :
    (∀ i : Fin 5, (fun _ : Fin 5 => true) i = true) ∧
    (reallocate_buffers witState 3 2 (fun _ => true) (fun _ _ => 0)).2.1.pixel_count = 3 * 2 :=
  ⟨by decide,
    ((realloc_atomic witState 3 2 (fun _ => true) (fun _ _ => 0)).2.2.1
      (by decide)).2.2.2.1⟩

/-- C10: an out-of-range `CMD_RESOLUTION` (width or height zero, or
above 4096) consumes its 4-byte body, performs no reallocation and no
geometry change, leaves the whole decoder state unchanged, and the
connection continues with the next packet (lines 762-778: the bounds
check guards the entire body and the handler ends in `continue`). -/
theorem resolution_reject_noop (maxc : Nat) (s : MirrorState) (r0 r1 r2 r3 : Nat)
    (rest : List Nat) (ok : Fin 5 → Bool) (junk : Fin 5 → Nat → Nat)
    (hbad : le16 r0 r1 = 0 ∨ le16 r2 r3 = 0 ∨ 4096 < le16 r0 r1 ∨ 4096 < le16 r2 r3) :
    read_packet maxc (0xDA :: 0x7F :: 0x04 :: r0 :: r1 :: r2 :: r3 :: rest) =
      some (.cmdResolution r0 r1 r2 r3, rest) ∧
    handle_resolution s r0 r1 r2 r3 ok junk = (s, []) := by
  constructor
  · simp [read_packet, MAGIC_FRAME_0, MAGIC_CMD_1, CMD_RESOLUTION]
  · unfold handle_resolution
    rw [if_neg (by omega)]

/-- Witness for C10 at width 4097 (bytes `01 10`). -/
theorem resolution_reject_noop_witness :
    4096 < le16 1 16 ∧
    handle_resolution witState 1 16 0 16 (fun _ => true) (fun _ _ => 0) = (witState, []) :=
  ⟨by decide,
    (resolution_reject_noop 260 witState 1 16 0 16 [] (fun _ => true) (fun _ _ => 0)
      (by decide)).2⟩

/-! ## The CPU RGBX blit (C8)

The fallback presentation path (render_thread lines 636-671, same
structure as `blit_grey_to_surface` lines 426-450): for each row a
16-pixel interleaved vector store loop followed by a scalar tail,
writing `(g, g, g, 0xFF)` per pixel into a locked RGBX surface.  The
surface is a byte function; `stride` is the per-row stride in pixels
(so `dst_stride = stride * 4` bytes). -/

/-- The four byte stores of one scalar pixel write:
`row[x*4+0..2] = v; row[x*4+3] = 0xFF`. -/
def write_pixel (bits : Nat → Nat) (off g : Nat) : Nat → Nat :=
  Function.update (Function.update (Function.update (Function.update bits off g)
    (off + 1) g) (off + 2) g) (off + 3) 0xFF

/-- `n` consecutive pixel writes starting at pixel `x`;
`write_pixels bits src rowBase x 16` is the 64-byte interleaved store
`vst4q_u8(row + x*4, {g, g, g, 0xFF})` with `g = vld1q_u8(src + x)`. -/
def write_pixels (bits src : Nat → Nat) (rowBase x : Nat) : Nat → (Nat → Nat)
  | 0 => bits
  | n + 1 => write_pixel (write_pixels bits src rowBase x n)
      (rowBase + (x + n) * 4) (src (x + n))

/-- `for (; x + 16 <= fw && x + 16 <= width; x += 16)` with fuel. -/
def blit_row_vec (src : Nat → Nat) : (Nat → Nat) → Nat → Nat → Nat → Nat → Nat → (Nat → Nat) × Nat
  | bits, _rowBase, _fw, _w, x, 0 => (bits, x)
  | bits, rowBase, fw, w, x, fuel + 1 =>
    if x + 16 ≤ fw ∧ x + 16 ≤ w then
      blit_row_vec src (write_pixels bits src rowBase x 16) rowBase fw w (x + 16) fuel
    else (bits, x)

/-- `for (; x < fw && x < width; x++)` scalar tail with fuel. -/
def blit_row_tail (src : Nat → Nat) : (Nat → Nat) → Nat → Nat → Nat → Nat → Nat → (Nat → Nat)
  | bits, _rowBase, _fw, _w, _x, 0 => bits
  | bits, rowBase, fw, w, x, fuel + 1 =>
    if x < fw ∧ x < w then
      blit_row_tail src (write_pixel bits (rowBase + x * 4) (src x)) rowBase fw w (x + 1) fuel
    else bits

/-- One row of the RGBX expansion: vector loop then scalar tail. -/
def blit_row (bits src : Nat → Nat) (rowBase fw w : Nat) : Nat → Nat :=
  blit_row_tail src (blit_row_vec src bits rowBase fw w 0 fw).1 rowBase fw w
    (blit_row_vec src bits rowBase fw w 0 fw).2 fw

/-- `for (y = 0; y < fh && y < height; y++)` row loop with fuel. -/
def blit_loop (frame : Nat → Nat) (stride sw fw : Nat) :
    (Nat → Nat) → Nat → Nat → Nat → Nat → (Nat → Nat)
  | bits, _sh, _fh, _y, 0 => bits
  | bits, sh, fh, y, fuel + 1 =>
    if y < fh ∧ y < sh then
      blit_loop frame stride sw fw
        (blit_row bits (fun x => frame (y * fw + x)) (y * (stride * 4)) fw sw)
        sh fh (y + 1) fuel
    else bits

/-- The CPU blit: grey frame `fw × fh` into a locked surface of
`sw × sh` pixels with row stride `stride` pixels. -/
def cpu_blit (bits frame : Nat → Nat) (stride sw sh fw fh : Nat) : Nat → Nat :=
  blit_loop frame stride sw fw bits sh fh 0 fh

/-- Reference row result: pixels `0 .. hi-1` of the row hold
`(g, g, g, 0xFF)`; every other byte is `bits`. -/
def rowSpec (bits src : Nat → Nat) (rowBase hi : Nat) : Nat → Nat :=
  fun j => if rowBase ≤ j ∧ j < rowBase + hi * 4 then
      (if (j - rowBase) % 4 = 3 then 0xFF else src ((j - rowBase) / 4))
    else bits j

lemma write_pixel_rowSpec (b s : Nat → Nat) (rb k : Nat) :
    write_pixel (rowSpec b s rb k) (rb + k * 4) (s k) = rowSpec b s rb (k + 1) := by
  funext j
  simp only [write_pixel, Function.update_apply, rowSpec]
  split_ifs <;> first | rfl | omega | (exfalso; omega) | (congr 1; omega)

lemma write_pixels_rowSpec (b s : Nat → Nat) (rb x : Nat) :
    ∀ n, write_pixels (rowSpec b s rb x) s rb x n = rowSpec b s rb (x + n) := by
  intro n
  induction n with
  | zero => rfl
  | succ n ih =>
    simp only [write_pixels, ih]
    exact write_pixel_rowSpec b s rb (x + n)

lemma rowSpec_outside (b s : Nat → Nat) (rb hi j : Nat)
    (h : j < rb ∨ rb + hi * 4 ≤ j) : rowSpec b s rb hi j = b j := by
  unfold rowSpec
  rw [if_neg (by omega)]

lemma blit_row_vec_spec (b s : Nat → Nat) (rb fw w : Nat) :
    ∀ (fuel x : Nat), fw ≤ x + 16 * fuel → x ≤ fw → x ≤ w →
      ∃ x', blit_row_vec s (rowSpec b s rb x) rb fw w x fuel = (rowSpec b s rb x', x') ∧
        x ≤ x' ∧ x' ≤ fw ∧ x' ≤ w := by
  intro fuel
  induction fuel with
  | zero => exact fun x _ hf hw => ⟨x, rfl, Nat.le_refl x, hf, hw⟩
  | succ n ih =>
    intro x h hf hw
    by_cases hc : x + 16 ≤ fw ∧ x + 16 ≤ w
    · have e1 : blit_row_vec s (rowSpec b s rb x) rb fw w x (n + 1)
          = blit_row_vec s (write_pixels (rowSpec b s rb x) s rb x 16) rb fw w (x + 16) n := by
        simp only [blit_row_vec, if_pos hc]
      rw [e1, write_pixels_rowSpec]
      obtain ⟨x', e2, h2, h3, h4⟩ := ih (x + 16) (by omega) hc.1 hc.2
      exact ⟨x', e2, by omega, h3, h4⟩
    · exact ⟨x, by simp only [blit_row_vec, if_neg hc], Nat.le_refl x, hf, hw⟩

lemma blit_row_tail_spec (b s : Nat → Nat) (rb fw w : Nat) :
    ∀ (fuel x : Nat), fw ≤ x + fuel → x ≤ fw → x ≤ w →
      blit_row_tail s (rowSpec b s rb x) rb fw w x fuel = rowSpec b s rb (min fw w) := by
  intro fuel
  induction fuel with
  | zero =>
    intro x h hf hw
    have : min fw w = x := by omega
    rw [← this]
    rfl
  | succ n ih =>
    intro x h hf hw
    by_cases hc : x < fw ∧ x < w
    · have e1 : blit_row_tail s (rowSpec b s rb x) rb fw w x (n + 1)
          = blit_row_tail s (write_pixel (rowSpec b s rb x) (rb + x * 4)
              (s x)) rb fw w (x + 1) n := by
        simp only [blit_row_tail, if_pos hc]
      rw [e1, write_pixel_rowSpec]
      exact ih (x + 1) (by omega) (by omega) (by omega)
    · have e1 : blit_row_tail s (rowSpec b s rb x) rb fw w x (n + 1) = rowSpec b s rb x := by
        simp only [blit_row_tail, if_neg hc]
      rw [e1]
      have : min fw w = x := by omega
      rw [this]

lemma blit_row_spec (b s : Nat → Nat) (rb fw w : Nat) :
    blit_row b s rb fw w = rowSpec b s rb (min fw w) := by
  have h0 : rowSpec b s rb 0 = b := by
    funext j
    unfold rowSpec
    rw [if_neg (by omega)]
  obtain ⟨x', e1, _, h3, h4⟩ := blit_row_vec_spec b s rb fw w fw 0 (by omega) (by omega)
    (by omega)
  rw [h0] at e1
  unfold blit_row
  rw [e1]
  dsimp only
  exact blit_row_tail_spec b s rb fw w fw x' (by omega) h3 h4

lemma blit_row_untouched (b s : Nat → Nat) (rb fw w j : Nat)
    (h : j < rb ∨ rb + min fw w * 4 ≤ j) : blit_row b s rb fw w j = b j := by
  rw [blit_row_spec]
  exact rowSpec_outside b s rb (min fw w) j h

lemma blit_loop_untouched (frame : Nat → Nat) (stride sw fw : Nat) :
    ∀ (fuel : Nat) (bits : Nat → Nat) (sh fh y j : Nat), j < y * (stride * 4) →
      blit_loop frame stride sw fw bits sh fh y fuel j = bits j := by
  intro fuel
  induction fuel with
  | zero => intro bits sh fh y j _; rfl
  | succ n ih =>
    intro bits sh fh y j h
    by_cases hc : y < fh ∧ y < sh
    · have e1 : blit_loop frame stride sw fw bits sh fh y (n + 1)
          = blit_loop frame stride sw fw
              (blit_row bits (fun x => frame (y * fw + x)) (y * (stride * 4)) fw sw)
              sh fh (y + 1) n := by
        simp only [blit_loop, if_pos hc]
      have hmono : y * (stride * 4) ≤ (y + 1) * (stride * 4) :=
        Nat.mul_le_mul_right _ (by omega)
      rw [e1, ih _ sh fh (y + 1) j (by omega)]
      exact blit_row_untouched bits _ _ fw sw j (Or.inl h)
    · simp only [blit_loop, if_neg hc]

lemma blit_loop_value (frame : Nat → Nat) (stride sw fw : Nat) (hsw : sw ≤ stride)
    (y x c : Nat) (hx : x < fw) (hx2 : x < sw) (hc : c < 4) :
    ∀ (fuel : Nat) (bits : Nat → Nat) (sh fh y0 : Nat), y0 ≤ y → y < fh → y < sh →
      fh ≤ y0 + fuel →
      blit_loop frame stride sw fw bits sh fh y0 fuel (y * (stride * 4) + x * 4 + c) =
        (if c = 3 then 0xFF else frame (y * fw + x)) := by
  intro fuel
  induction fuel with
  | zero =>
    intro bits sh fh y0 h1 h2 h3 h4
    omega
  | succ n ih =>
    intro bits sh fh y0 h1 h2 h3 h4
    by_cases hy0 : y0 = y
    · subst hy0
      have e1 : blit_loop frame stride sw fw bits sh fh y0 (n + 1)
          = blit_loop frame stride sw fw
              (blit_row bits (fun x => frame (y0 * fw + x)) (y0 * (stride * 4)) fw sw)
              sh fh (y0 + 1) n := by
        simp only [blit_loop]
        rw [if_pos (And.intro h2 h3)]
      have hsm : sw * 4 ≤ stride * 4 := Nat.mul_le_mul_right _ hsw
      have hplus : (y0 + 1) * (stride * 4) = y0 * (stride * 4) + stride * 4 := by ring
      rw [e1, blit_loop_untouched frame stride sw fw n _ sh fh (y0 + 1) _ (by omega),
        blit_row_spec]
      unfold rowSpec
      rw [if_pos ⟨by omega, by omega⟩]
      have e4 : y0 * (stride * 4) + x * 4 + c - y0 * (stride * 4) = x * 4 + c := by omega
      rw [e4]
      by_cases hc3 : c = 3
      · subst hc3
        rw [if_pos (by omega), if_pos rfl]
      · rw [if_neg (by omega), if_neg hc3]
        have e5 : (x * 4 + c) / 4 = x := by omega
        rw [e5]
    · have hlt : y0 < y := by omega
      have e1 : blit_loop frame stride sw fw bits sh fh y0 (n + 1)
          = blit_loop frame stride sw fw
              (blit_row bits (fun x => frame (y0 * fw + x)) (y0 * (stride * 4)) fw sw)
              sh fh (y0 + 1) n := by
        simp only [blit_loop]
        rw [if_pos (And.intro (by omega : y0 < fh) (by omega : y0 < sh))]
      rw [e1]
      exact ih _ sh fh (y0 + 1) (by omega) h2 h3 (by omega)

/-- C8: in the CPU blit path, for every row `y < min(fh, surface_h)`
and column `x < min(fw, surface_w)`, the four bytes written for pixel
`(x, y)` are `(g, g, g, 0xFF)` with `g = frame[y*fw + x]`: every
written alpha byte is 0xFF, and since the result is exactly
`frame (y*fw + x)` for any `frame`, no other frame byte influences
the output at `(x, y)`. -/
theorem cpu_blit_pixel (bits frame : Nat → Nat) (stride sw sh fw fh x y c : Nat)
    (hsw : sw ≤ stride) (hy : y < fh) (hy2 : y < sh)
    (hx : x < fw) (hx2 : x < sw) (hc : c < 4) :
    cpu_blit bits frame stride sw sh fw fh (y * (stride * 4) + x * 4 + c) =
      if c = 3 then 0xFF else frame (y * fw + x) := by
  unfold cpu_blit
  exact blit_loop_value frame stride sw fw hsw y x c hx hx2 hc fh bits sh fh 0
    (by omega) hy hy2 (by omega)

/-- Witness for C8: a 1×1 frame blit writes alpha 0xFF at byte 3. -/
theorem cpu_blit_pixel_witness :
    (1 : Nat) ≤ 1 ∧
    cpu_blit (fun _ => 0) (fun _ => 7) 1 1 1 1 1 (0 * (1 * 4) + 0 * 4 + 3) =
      (if (3 : Nat) = 3 then 0xFF else (fun _ : Nat => 7) (0 * 1 + 0)) :=
  ⟨by decide, cpu_blit_pixel (fun _ => 0) (fun _ => 7) 1 1 1 1 1 0 0 3 (by decide)
    (by decide) (by decide) (by decide) (by decide) (by decide)⟩

end DaylightMirror
